import Mathlib

/-!
Shallow embedding of `hourglass.py`, a continuous playout scheduler for a
broadcast-style video channel.

Pure fragments of the program become Lean functions.  Sources of
nondeterminism and environment interaction are passed in explicitly:
`random.shuffle` becomes a list given in its shuffled order, `random.choice`
becomes a pick oracle `List _ → Option _`, filesystem listings become
explicit inputs (an `Except` value where the listing itself can raise), the
external `ffprobe` call becomes an `Option ℚ`-valued oracle, and the duration
cache is explicit state.  Machine floats (durations, seconds) are modelled as
rationals.
-/

namespace Hourglass

/-- Wall-clock instant: the fields of a Python `datetime` that the scheduler
reads (`hour`, `minute`, `second`, `microsecond`). -/
structure DateTime where
  hour : Nat
  minute : Nat
  second : Nat
  microsecond : Nat
deriving DecidableEq, Repr

/-- Embedding of `time_until_next_slot` (hourglass.py lines 125-134): seconds
until the next instant whose minute equals the configured slot minute and
whose second is zero; the target rolls to the next hour when
`now.minute > SLOT_MINUTE or (now.minute == SLOT_MINUTE and now.second > 0)`;
the difference is clamped below by `max(0, ...)`.  The `fail` flag selects
the `except` branch, which returns `SLOT_DURATION`. -/
def time_until_next_slot (slotMinute : Nat) (slotDuration : ℚ) (now : DateTime)
    (fail : Bool) : ℚ :=
  if fail then slotDuration
  else
    let base : ℚ :=
      (now.minute : ℚ) * 60 + (now.second : ℚ) + (now.microsecond : ℚ) / 1000000
    let target : ℚ :=
      if slotMinute < now.minute ∨ (now.minute = slotMinute ∧ 0 < now.second) then
        (slotMinute : ℚ) * 60 + 3600
      else (slotMinute : ℚ) * 60
    max 0 (target - base)

/-- Embedding of `is_slot_time` (hourglass.py lines 361-363).  The Python
function takes `now` but reads a fresh `datetime.now()` inside
`time_until_next_slot()`; `clockNow` is that fresh reading.  `lastHour` is
`last_slot_hour`, `none` standing for Python `None` (and `None != hour` is
true). -/
def is_slot_time (slotMinute : Nat) (slotDuration : ℚ) (now : DateTime)
    (lastHour : Option Nat) (clockNow : DateTime) (fail : Bool) : Bool :=
  decide (some now.hour ≠ lastHour) &&
    decide (|time_until_next_slot slotMinute slotDuration clockNow fail| ≤ 60)

/-- Embedding of the value returned by `execute_slot` (hourglass.py line 370)
and assigned to `last_slot_hour`: the hour of the firing instant. -/
def markFired (now : DateTime) : Nat := now.hour

/-- Embedding of `get_video_duration` (hourglass.py lines 140-169) with the
`duration_cache` dict as explicit state (an association list) and `ffprobe`
as the oracle `probe` (`none` = timeout / non-zero exit / malformed output).
Returns (duration, new cache, whether the external tool was invoked). -/
def get_video_duration (probe : String → Option ℚ) (cache : List (String × ℚ))
    (p : String) : ℚ × List (String × ℚ) × Bool :=
  match cache.lookup p with
  | some d => (d, cache, false)
  | none =>
    match probe p with
    | some d => (d, (p, d) :: cache, true)
    | none => (0, (p, 0) :: cache, true)

theorem time_until_next_slot_false (sm : Nat) (sd : ℚ) (now : DateTime) :
    time_until_next_slot sm sd now false =
      max 0 ((if sm < now.minute ∨ (now.minute = sm ∧ 0 < now.second) then
          (sm : ℚ) * 60 + 3600
        else (sm : ℚ) * 60) -
        ((now.minute : ℚ) * 60 + (now.second : ℚ) + (now.microsecond : ℚ) / 1000000)) :=
  rfl

/-- Claim C5: For every instant `now` (with a valid configured slot minute
0-59), `secondsUntilNextSlot(now)` returns a value `v` with
`0 ≤ v < 3600`; and on internal failure it returns the configured slot
duration as the fallback value. -/
theorem C5_next_slot_bounds (sm : Nat) (sd : ℚ) (now : DateTime)
    (hsm : sm ≤ 59) (hmin : now.minute ≤ 59) (hsec : now.second ≤ 59)
    (hmic : now.microsecond < 1000000) :
    (0 ≤ time_until_next_slot sm sd now false ∧
      time_until_next_slot sm sd now false < 3600) ∧
    time_until_next_slot sm sd now true = sd := by
  refine ⟨⟨?_, ?_⟩, by simp [time_until_next_slot]⟩
  · rw [time_until_next_slot_false]
    exact le_max_left 0 _
  · rw [time_until_next_slot_false]
    refine max_lt (by norm_num) ?_
    have hmic' : (now.microsecond : ℚ) / 1000000 < 1 := by
      rw [div_lt_one (by norm_num)]
      exact_mod_cast hmic
    have hmic0 : (0 : ℚ) ≤ (now.microsecond : ℚ) / 1000000 := by positivity
    have hsec0 : (0 : ℚ) ≤ (now.second : ℚ) := by positivity
    have hmin0 : (0 : ℚ) ≤ (now.minute : ℚ) := by positivity
    by_cases hro : sm < now.minute ∨ (now.minute = sm ∧ 0 < now.second)
    · rw [if_pos hro]
      rcases hro with h | ⟨he, hs⟩
      · have h' : (sm : ℚ) + 1 ≤ (now.minute : ℚ) := by exact_mod_cast h
        nlinarith
      · have he' : (now.minute : ℚ) = (sm : ℚ) := by exact_mod_cast he
        have hs' : (1 : ℚ) ≤ (now.second : ℚ) := by exact_mod_cast hs
        nlinarith
    · rw [if_neg hro]
      have hsm' : (sm : ℚ) ≤ 59 := by exact_mod_cast hsm
      nlinarith

theorem C5_witness :
    ((0 ≤ time_until_next_slot 18 65 ⟨12, 30, 15, 0⟩ false ∧
      time_until_next_slot 18 65 ⟨12, 30, 15, 0⟩ false < 3600) ∧
      time_until_next_slot 18 65 ⟨12, 30, 15, 0⟩ true = 65) :=
  C5_next_slot_bounds 18 65 ⟨12, 30, 15, 0⟩ (by norm_num) (by norm_num)
    (by norm_num) (by norm_num)

/-- Claim C1: `slotDue(now, lastFiredHour)` returns true if and only if
`now.hour != lastFiredHour` and `|secondsUntilNextSlot(now)| ≤ 60`;
consequently, after `markFired` records `now.hour`, `slotDue` is false for
every later instant within that same calendar hour, no matter how often it is
called, so the slot fires at most once per calendar hour. -/
theorem C1_slot_due_iff_and_once_per_hour (sm : Nat) (sd : ℚ) (now : DateTime)
    (lastHour : Option Nat) (fail : Bool) :
    (is_slot_time sm sd now lastHour now fail = true ↔
      (some now.hour ≠ lastHour ∧
        |time_until_next_slot sm sd now fail| ≤ 60)) ∧
    (∀ later : DateTime, ∀ fail' : Bool, later.hour = now.hour →
      is_slot_time sm sd later (some (markFired now)) later fail' = false) := by
  constructor
  · simp [is_slot_time]
  · intro later fail' h
    simp [is_slot_time, markFired, h]

theorem C1_witness :
    is_slot_time 18 65 ⟨18, 30, 0, 0⟩ (some (markFired ⟨18, 17, 5, 0⟩))
      ⟨18, 30, 0, 0⟩ false = false :=
  (C1_slot_due_iff_and_once_per_hour 18 65 ⟨18, 17, 5, 0⟩ none false).2
    ⟨18, 30, 0, 0⟩ false rfl

/-- Claim C9: For every path, two successive calls to the duration probe return
the identical duration value, including the degraded value 0 after a failed
probe, and the second call performs no external tool invocation: the cache is
consulted first, a successful parse caches the parsed float, and any failure
caches 0 for the remainder of the process lifetime. -/
theorem C9_probe_idempotent (probe : String → Option ℚ)
    (cache : List (String × ℚ)) (p : String) :
    (get_video_duration probe (get_video_duration probe cache p).2.1 p).1 =
      (get_video_duration probe cache p).1 ∧
    (get_video_duration probe (get_video_duration probe cache p).2.1 p).2.2 =
      false ∧
    (cache.lookup p = none → probe p = none →
      (get_video_duration probe cache p).1 = 0) := by
  unfold get_video_duration
  rcases hc : cache.lookup p with _ | d
  · rcases hp : probe p with _ | d
    · simp [hc, hp, List.lookup]
    · simp [hc, hp, List.lookup]
  · simp [hc]

theorem C9_witness :
    (get_video_duration (fun _ => none)
        (get_video_duration (fun _ => none) [] "x").2.1 "x").1 =
      (get_video_duration (fun _ => none) [] "x").1 ∧
    (get_video_duration (fun _ => none)
        (get_video_duration (fun _ => none) [] "x").2.1 "x").2.2 = false ∧
    (get_video_duration (fun _ => none) [] "x").1 = 0 := by
  have h := C9_probe_idempotent (fun _ => none) [] "x"
  exact ⟨h.1, h.2.1, h.2.2 rfl rfl⟩

/-- The fixed media-extension allow-list `VIDEO_EXTENSIONS`
(hourglass.py line 35). -/
def VIDEO_EXTENSIONS : List String := [".mp4", ".mkv", ".mov", ".ts", ".avi"]

/-- The queue bound `QUEUE_MAX_SIZE` (hourglass.py line 36). -/
def QUEUE_MAX_SIZE : Nat := 5

/-- A directory entry as the program sees it through `pathlib`: its path, its
file name, its parent directory, its suffix, whether it is a regular file or
a directory in the listing, and whether `.exists()` still holds when the
entry is used. -/
structure MediaFile where
  path : String
  name : String
  parent : String
  ext : String
  isFile : Bool
  isDir : Bool
  onDisk : Bool
deriving DecidableEq, Repr

/-- A show folder: a subdirectory of `EPISODES_FOLDER` with its directory
listing. -/
structure ShowDir where
  name : String
  files : List MediaFile
deriving DecidableEq, Repr

/-- A play-queue / selection entry: the dict built at hourglass.py lines
216-225, 292-299, 324-337 and 345-352. -/
structure Entry where
  path : String
  type : String
  label : String
  duration : ℚ
deriving DecidableEq, Repr

/-- Embedding of `normalize_path` (hourglass.py lines 45-52).  Path
resolution and backslash replacement are filesystem operations; on the
already-absolute forward-slash paths of the model it is the identity. -/
def normalize_path (p : String) : String := p

/-- Lowercasing of a suffix, Python `str.lower()`, character by character. -/
def lowerStr (s : String) : String := ⟨s.data.map Char.toLower⟩

/-- The episode-candidate filter shared by `get_next_random_episode`
(hourglass.py lines 188-194) and `get_fitting_episode` (lines 279-285 and
303-310): a regular file, suffix in the allow-list, name different from the
reserved slot video's name. -/
def episodeCandidate (slotVideoName : String) (f : MediaFile) : Bool :=
  f.isFile && VIDEO_EXTENSIONS.contains (lowerStr f.ext) &&
    (f.name != slotVideoName)

/-- Embedding of `get_show_folders` (hourglass.py lines 72-77): the listing
of `EPISODES_FOLDER` filtered to directories; a listing failure is caught and
reported as the empty list. -/
def get_show_folders (listing : Except String (List MediaFile)) :
    List MediaFile :=
  match listing with
  | .ok fs => fs.filter (·.isDir)
  | .error _ => []

/-- The `for folder in show_folders` loop of `get_next_random_episode`
(hourglass.py lines 187-201): one random episode per show, shows visited in
the given (shuffled) order, shows with no eligible candidates skipped,
stopping as soon as `count` episodes are selected.  `pick` stands for
`random.choice`. -/
def selectFromShows (slotVideoName : String)
    (pick : List MediaFile → Option MediaFile) (count : Nat) :
    List ShowDir → List MediaFile → List MediaFile
  | [], selected => selected
  | s :: rest, selected =>
    let cands := s.files.filter (episodeCandidate slotVideoName)
    if cands.isEmpty then selectFromShows slotVideoName pick count rest selected
    else
      match pick cands with
      | none => selectFromShows slotVideoName pick count rest selected
      | some e =>
        if count ≤ (selected ++ [e]).length then selected ++ [e]
        else selectFromShows slotVideoName pick count rest (selected ++ [e])

/-- Embedding of `get_next_random_episode` (hourglass.py lines 182-204) on an
already-listed, already-shuffled list of show folders. -/
def get_next_random_episode (shows : List ShowDir) (slotVideoName : String)
    (pick : List MediaFile → Option MediaFile) (count : Nat) :
    List MediaFile :=
  selectFromShows slotVideoName pick count shows []

/-- One candidate processed by the inner `for next_clip in next_clip_list`
loop of `refill_queue` (hourglass.py lines 210-225): skip if missing, probe
the duration, discard if `<= 1`, else append the entry dict.  The entry's
`type` is `EPISODE` when the clip's parent directory equals the episodes
root, else `FILLER`. -/
def processCandidate (episodesRoot : String) (dur : String → ℚ)
    (q : List Entry) (c : MediaFile) : List Entry :=
  if !c.onDisk then q
  else if dur c.path ≤ 1 then q
  else
    q ++ [{ path := normalize_path c.path,
            type := if c.parent = episodesRoot then "EPISODE" else "FILLER",
            label := c.name,
            duration := dur c.path }]

/-- Embedding of `refill_queue` (hourglass.py lines 207-225).  Each `while`
iteration performs a fresh directory listing and fresh shuffles; `rounds`
supplies, per iteration, the shuffled show list and the choice oracle, so the
recursion follows a finite prefix of the loop's execution.  The length bound
is checked only between rounds, exactly as the `while` guard is. -/
def refill_queue (episodesRoot slotVideoName : String) (dur : String → ℚ) :
    List (List ShowDir × (List MediaFile → Option MediaFile)) →
      List Entry → List Entry
  | [], q => q
  | r :: rest, q =>
    if q.length < QUEUE_MAX_SIZE then
      refill_queue episodesRoot slotVideoName dur rest
        ((get_next_random_episode r.1 slotVideoName r.2 5).foldl
          (processCandidate episodesRoot dur) q)
    else q

/-- The filler-file filter of `get_random_filler` (hourglass.py lines
229-242): a regular file with an allow-listed suffix. -/
def fillerFile (f : MediaFile) : Bool :=
  f.isFile && VIDEO_EXTENSIONS.contains (lowerStr f.ext)

/-- Embedding of `get_random_filler` (hourglass.py lines 228-243) on an
already-listed filler catalog.  Fillers whose path is in the recent-filler
window are excluded; if none remain, the window is cleared wholesale and the
full filtered catalog is used; `None` is returned only when even that is
empty.  Returns the choice and the (possibly cleared) window. -/
def get_random_filler (catalog : List MediaFile) (recent : List String)
    (pickF : List MediaFile → Option MediaFile) :
    Option MediaFile × List String :=
  let fillers := catalog.filter (fun f => fillerFile f && !(recent.contains f.path))
  if fillers.isEmpty then
    let fillers2 := catalog.filter fillerFile
    ((if fillers2.isEmpty then none else pickF fillers2), [])
  else (pickF fillers, recent)

/-- Embedding of `get_next_random_episode`'s own listing of the episodes root
(hourglass.py line 183), which has no exception handler: a listing failure
propagates to the caller. -/
def get_next_random_episode_r (listing : Except String (List ShowDir))
    (slotVideoName : String) (pick : List MediaFile → Option MediaFile) :
    Except String (List MediaFile) :=
  match listing with
  | .error e => .error e
  | .ok shows => .ok (get_next_random_episode shows slotVideoName pick 5)

/-- Embedding of `get_random_filler`'s listing of the filler folder
(hourglass.py lines 229-235), which has no exception handler: a listing
failure propagates to the caller. -/
def get_random_filler_r (listing : Except String (List MediaFile))
    (recent : List String) (pickF : List MediaFile → Option MediaFile) :
    Except String (Option MediaFile × List String) :=
  match listing with
  | .error e => .error e
  | .ok catalog => .ok (get_random_filler catalog recent pickF)

/-- A demonstration show folder holding one eligible episode file, located
inside a subdirectory of the episodes root `/eps`. -/
def demoShow (i : Nat) : ShowDir :=
  let si := "s" ++ toString i
  { name := si,
    files := [{ path := "/eps/" ++ si ++ "/e.mp4", name := "e.mp4",
                parent := "/eps/" ++ si, ext := ".mp4",
                isFile := true, isDir := false, onDisk := true }] }

/-- A duration oracle under which every probed clip lasts 600 seconds. -/
def demoDur : String → ℚ := fun _ => 600

/-- A queue already holding four entries, one below the bound. -/
def demoQueue : List Entry :=
  (List.range 4).map (fun i =>
    { path := "q" ++ toString i, type := "EPISODE", label := "q",
      duration := 600 })

/-- Claim C3 (code bug): the claim says the queue length never exceeds
`QUEUE_MAX_SIZE` (5) after a `refill()` call, but `refill_queue` checks the
bound only in the `while` guard and then appends the entire batch of up to 5
candidates: starting from a queue of length 4, one refill round over five
one-episode shows leaves 9 entries. -/
theorem C3_refill_overshoots :
    (refill_queue "/eps" "slot.ts" demoDur
      [([demoShow 1, demoShow 2, demoShow 3, demoShow 4, demoShow 5],
        List.head?)] demoQueue).length = 9 ∧
    QUEUE_MAX_SIZE = 5 := by
  constructor
  · rfl
  · rfl

/-- Claim C7 (code bug): the claim says every entry appended by refill has
type `EPISODE`, but the code compares the clip's parent directory with the
episodes root, and episodes live in show subdirectories, so every appended
entry is typed `FILLER`. -/
theorem C7_entry_type_filler :
    (refill_queue "/eps" "slot.ts" demoDur [([demoShow 1], List.head?)]
      []).map Entry.type = ["FILLER"] := by
  rfl

/-- Claim C8, counterexample: a filesystem failure while listing the filler
folder is not reported as an empty result; it propagates out of
`get_random_filler` as the exception itself. -/
theorem C8_counterexample :
    get_random_filler_r (.error "ENOENT") [] List.head? = .error "ENOENT" :=
  rfl

/-- Claim C8, amended: `get_show_folders` catches listing failures and
returns an empty result, but the episode-listing inside
`get_next_random_episode` and the filler-folder listing inside
`get_random_filler` have no handler and propagate the exception to the
caller. -/
theorem C8_listing_failures (e : String) (recent : List String)
    (slotVideoName : String) (pick pickF : List MediaFile → Option MediaFile) :
    get_show_folders (.error e) = [] ∧
    get_next_random_episode_r (.error e) slotVideoName pick = .error e ∧
    get_random_filler_r (.error e) recent pickF = .error e :=
  ⟨rfl, rfl, rfl⟩

/-- The `recent_fillers` window is a `deque(maxlen=5)` (hourglass.py line
38): appending past the bound evicts the oldest entries. -/
def pushRecent (recent : List String) (p : String) : List String :=
  let r := recent ++ [p]
  r.drop (r.length - 5)

/-- One iteration of the `while` loop of `play_filler_until_slot`
(hourglass.py lines 246-263), as a step function on the state (remaining
budget, recent-filler window).  `none` means the loop exits: the guard
`seconds_remaining > SLOT_DURATION` is false, or the `break` on a missing or
absent filler fires.  `some` is the state at the next iteration: unchanged
(up to the window mutation done inside `get_random_filler`) when the
selected filler is rejected by the duration check (`continue`), else the
budget decreases by the played duration and the filler joins the window. -/
def fillerStep (slotDuration : ℚ) (dur : String → ℚ)
    (catalog : List MediaFile) (pickF : List MediaFile → Option MediaFile)
    (st : ℚ × List String) : Option (ℚ × List String) :=
  if st.1 ≤ slotDuration then none
  else
    let gf := get_random_filler catalog st.2 pickF
    match gf.1 with
    | none => none
    | some f =>
      if !f.onDisk then none
      else if dur f.path ≤ 1 ∨ st.1 - 2 ≤ dur f.path then some (st.1, gf.2)
      else some (st.1 - dur f.path, pushRecent gf.2 f.path)

/-- Iterates `fillerStep` for at most `fuel` iterations, returning the final
state and the number of iterations that played a filler (strictly decreased
the budget). -/
def runFiller (slotDuration : ℚ) (dur : String → ℚ)
    (catalog : List MediaFile) (pickF : List MediaFile → Option MediaFile) :
    Nat → ℚ × List String → (ℚ × List String) × Nat
  | 0, st => (st, 0)
  | n + 1, st =>
    match fillerStep slotDuration dur catalog pickF st with
    | none => (st, 0)
    | some st2 =>
      let r := runFiller slotDuration dur catalog pickF n st2
      (r.1, r.2 + if st2.1 < st.1 then 1 else 0)

theorem fillerStep_budget (slotDuration : ℚ) (dur : String → ℚ)
    (catalog : List MediaFile) (pickF : List MediaFile → Option MediaFile)
    (st st2 : ℚ × List String)
    (h : fillerStep slotDuration dur catalog pickF st = some st2) :
    st2.1 = st.1 ∨ (st2.1 + 1 < st.1 ∧ 2 < st2.1) := by
  unfold fillerStep at h
  by_cases hguard : st.1 ≤ slotDuration
  · rw [if_pos hguard] at h
    exact absurd h (by simp)
  · rw [if_neg hguard] at h
    rcases hgf : get_random_filler catalog st.2 pickF with ⟨fo, r⟩
    rw [hgf] at h
    rcases fo with _ | f
    · exact absurd h (by simp)
    · simp only at h
      by_cases hdisk : (!f.onDisk) = true
      · rw [if_pos hdisk] at h
        exact absurd h (by simp)
      · rw [if_neg hdisk] at h
        by_cases hdur : dur f.path ≤ 1 ∨ st.1 - 2 ≤ dur f.path
        · rw [if_pos hdur] at h
          have h' := Option.some.inj h
          subst h'
          left
          rfl
        · rw [if_neg hdur] at h
          push_neg at hdur
          have h' := Option.some.inj h
          subst h'
          right
          constructor
          · show st.1 - dur f.path + 1 < st.1
            linarith [hdur.1]
          · show (2 : ℚ) < st.1 - dur f.path
            linarith [hdur.2]

/-- A filler clip on disk whose probed duration is 0 (a failed probe cached
as 0): selected every iteration, rejected every iteration. -/
def spinFiller : MediaFile :=
  { path := "/fill/z.mp4", name := "z.mp4", parent := "/fill", ext := ".mp4",
    isFile := true, isDir := false, onDisk := true }

/-- Claim C6, counterexample: with a catalog whose only filler has cached
duration 0, the loop body maps the state (budget 100, empty window) back to
itself while the guard is still true, so the play-filler-until-slot loop
never terminates for this catalog state; the claim asserts termination for
every filler catalog state. -/
theorem C6_counterexample :
    fillerStep 10 (fun _ => 0) [spinFiller] List.head? (100, []) =
      some (100, []) := by
  rfl

/-- Claim C6, amended: for every initial remaining-time budget, every
execution prefix of the play-filler-until-slot loop plays at most
`max 0 (budget - 2)` fillers — each played filler is duration-checked and
strictly decreases the budget by more than 1 — and the loop exits as soon as
no filler is available; but the loop is not guaranteed to terminate: an
iteration whose selected filler has duration `≤ 1` or `≥ remaining - 2` makes
no progress, and if every selection is such the loop spins forever. -/
theorem C6_filler_plays_bounded (slotDuration : ℚ) (dur : String → ℚ)
    (catalog : List MediaFile) (pickF : List MediaFile → Option MediaFile)
    (fuel : Nat) (st : ℚ × List String) :
    ((runFiller slotDuration dur catalog pickF fuel st).2 : ℚ) ≤
      max 0 (st.1 - 2) := by
  induction fuel generalizing st with
  | zero =>
    simp [runFiller]
  | succ n ih =>
    rw [runFiller]
    rcases hstep : fillerStep slotDuration dur catalog pickF st with _ | st2
    · simp
    · simp only
      rcases fillerStep_budget slotDuration dur catalog pickF st st2 hstep with
        heq | ⟨hlt, h2⟩
      · have hnlt : ¬st2.1 < st.1 := by rw [heq]; exact lt_irrefl _
        rw [if_neg hnlt]
        have := ih st2
        rw [heq] at this
        simpa using this
      · rw [if_pos (by linarith)]
        have hbound := ih st2
        have hmax : max 0 (st2.1 - 2) = st2.1 - 2 := by
          rw [max_eq_right]
          linarith
        rw [hmax] at hbound
        have hle : (st.1 - 2) ≥ st2.1 - 1 := by linarith
        have : ((runFiller slotDuration dur catalog pickF n st2).2 : ℚ) + 1 ≤
            st.1 - 2 := by linarith
        push_cast
        calc ((runFiller slotDuration dur catalog pickF n st2).2 : ℚ) + 1 ≤
            st.1 - 2 := this
          _ ≤ max 0 (st.1 - 2) := le_max_right 0 _

/-- Insertion into a list sorted by path (Python `sorted` on paths). -/
def insertByPath (f : MediaFile) : List MediaFile → List MediaFile
  | [] => [f]
  | g :: gs => if f.path ≤ g.path then f :: g :: gs else g :: insertByPath f gs

/-- Sorting of the glob result by path, Python `sorted(...)`. -/
def sortByPath : List MediaFile → List MediaFile
  | [] => []
  | f :: fs => insertByPath f (sortByPath fs)

/-- Embedding of `get_random_slot_ts` (hourglass.py lines 114-122): choose
among the sorted `*.ts` files of the slot folder; when that listing fails or
yields no `.ts` file, the `except` branch returns `get_random_filler()`
instead. -/
def get_random_slot_ts (slotListing : Except String (List MediaFile))
    (pickSlot : List MediaFile → Option MediaFile)
    (catalog : List MediaFile) (recent : List String)
    (pickF : List MediaFile → Option MediaFile) :
    Option MediaFile × List String :=
  match slotListing with
  | .error _ => get_random_filler catalog recent pickF
  | .ok files =>
    let slotFiles := sortByPath (files.filter (fun f => f.ext == ".ts"))
    if slotFiles.isEmpty then get_random_filler catalog recent pickF
    else (pickSlot slotFiles, recent)

/-- Claim C10: When the slot fires but the slot-clips folder contains no
`.ts` files (or listing it fails), the slot-clip selector does not fail or
skip the slot: it falls back to a clip drawn from the filler rotator, so the
aired slot segment may actually be a filler clip. -/
theorem C10_slot_falls_back (e : String) (files catalog : List MediaFile)
    (recent : List String)
    (pickSlot pickF : List MediaFile → Option MediaFile)
    (hno : files.filter (fun f => f.ext == ".ts") = []) :
    get_random_slot_ts (.error e) pickSlot catalog recent pickF =
      get_random_filler catalog recent pickF ∧
    get_random_slot_ts (.ok files) pickSlot catalog recent pickF =
      get_random_filler catalog recent pickF := by
  refine ⟨rfl, ?_⟩
  simp [get_random_slot_ts, hno, sortByPath]

theorem C10_witness :
    get_random_slot_ts (.error "ENOENT") List.head? [spinFiller] []
        List.head? =
      get_random_filler [spinFiller] [] List.head? ∧
    get_random_slot_ts (.ok []) List.head? [spinFiller] [] List.head? =
      get_random_filler [spinFiller] [] List.head? :=
  C10_slot_falls_back "ENOENT" [] [spinFiller] [] List.head? List.head? rfl

/-- One episode examined by the best-single scan of `get_fitting_episode`
(hourglass.py lines 287-300): the accumulator is (best single entry so far,
smallest gap so far, initially `max_duration`); an episode with
`1 < duration <= max_duration` replaces the accumulator when its gap is
strictly smaller. -/
def bestSingleStep (maxDuration : ℚ) (dur : String → ℚ) (showName : String)
    (acc : Option Entry × ℚ) (ep : MediaFile) : Option Entry × ℚ :=
  if 1 < dur ep.path ∧ dur ep.path ≤ maxDuration then
    if maxDuration - dur ep.path < acc.2 then
      (some { path := normalize_path ep.path, type := "EPISODE",
              label := showName ++ " - " ++ ep.name,
              duration := dur ep.path },
        maxDuration - dur ep.path)
    else acc
  else acc

/-- The best-single scan of `get_fitting_episode` (hourglass.py lines
274-300): shows in the given (shuffled) order, each show's candidate
episodes in the given (shuffled) order. -/
def best_single_of (shows : List ShowDir) (slotVideoName : String)
    (dur : String → ℚ) (maxDuration : ℚ) : Option Entry × ℚ :=
  shows.foldl
    (fun acc s =>
      (s.files.filter (episodeCandidate slotVideoName)).foldl
        (bestSingleStep maxDuration dur s.name) acc)
    (none, maxDuration)

/-- Ordered pairs (i, j) with i before j, in the order traversed by the
double `for` loop at hourglass.py lines 316-317. -/
def listPairs : List MediaFile → List (MediaFile × MediaFile)
  | [] => []
  | x :: rest => rest.map (fun y => (x, y)) ++ listPairs rest

/-- One pair examined by the best-pair scan (hourglass.py lines 318-338):
a pair with summed duration in `(2, max_duration]` replaces the accumulator
when its gap is strictly smaller. -/
def bestPairStep (maxDuration : ℚ) (dur : String → ℚ)
    (acc : Option (Entry × Entry) × ℚ) (pq : MediaFile × MediaFile) :
    Option (Entry × Entry) × ℚ :=
  if 2 < dur pq.1.path + dur pq.2.path ∧
      dur pq.1.path + dur pq.2.path ≤ maxDuration then
    if maxDuration - (dur pq.1.path + dur pq.2.path) < acc.2 then
      (some ({ path := normalize_path pq.1.path, type := "EPISODE",
               label := pq.1.name, duration := dur pq.1.path },
             { path := normalize_path pq.2.path, type := "EPISODE",
               label := pq.2.name, duration := dur pq.2.path }),
        maxDuration - (dur pq.1.path + dur pq.2.path))
    else acc
  else acc

/-- The best-pair scan of `get_fitting_episode` (hourglass.py lines
302-338); `allEps` is the flattened, shuffled candidate list built at lines
303-311. -/
def best_pair_of (allEps : List MediaFile) (dur : String → ℚ)
    (maxDuration : ℚ) : Option (Entry × Entry) × ℚ :=
  (listPairs allEps).foldl (bestPairStep maxDuration dur) (none, maxDuration)

/-- Embedding of `get_fitting_episode` (hourglass.py lines 270-357).
`fillerPick` is the outcome of the `get_random_filler()` call made on the
fallback path.  When neither scan found anything, return one fallback filler
entry (or `None` when no filler is available or the chosen filler is gone);
otherwise return the best pair when one exists, else the best single. -/
def get_fitting_episode (shows : List ShowDir) (allEps : List MediaFile)
    (slotVideoName : String) (dur : String → ℚ) (maxDuration : ℚ)
    (fillerPick : Option MediaFile) : Option (List Entry) :=
  match (best_pair_of allEps dur maxDuration).1,
      (best_single_of shows slotVideoName dur maxDuration).1 with
  | none, none =>
    match fillerPick with
    | some f =>
      if f.onDisk then
        some [{ path := normalize_path f.path, type := "FILLER",
                label := "FALLBACK - " ++ f.name, duration := dur f.path }]
      else none
    | none => none
  | some pr, _ => some [pr.1, pr.2]
  | none, some e => some [e]

/-- Summed duration of a selection. -/
def entriesDuration (es : List Entry) : ℚ := (es.map Entry.duration).sum

theorem gfe_fallback_some (shows : List ShowDir) (allEps : List MediaFile)
    (slotVideoName : String) (dur : String → ℚ) (maxDuration : ℚ)
    (f : MediaFile)
    (h1 : (best_single_of shows slotVideoName dur maxDuration).1 = none)
    (h2 : (best_pair_of allEps dur maxDuration).1 = none) :
    get_fitting_episode shows allEps slotVideoName dur maxDuration (some f) =
      if f.onDisk then
        some [{ path := normalize_path f.path, type := "FILLER",
                label := "FALLBACK - " ++ f.name, duration := dur f.path }]
      else none := by
  unfold get_fitting_episode
  rw [h1, h2]

theorem gfe_fallback_none (shows : List ShowDir) (allEps : List MediaFile)
    (slotVideoName : String) (dur : String → ℚ) (maxDuration : ℚ)
    (h1 : (best_single_of shows slotVideoName dur maxDuration).1 = none)
    (h2 : (best_pair_of allEps dur maxDuration).1 = none) :
    get_fitting_episode shows allEps slotVideoName dur maxDuration none =
      none := by
  unfold get_fitting_episode
  rw [h1, h2]

theorem foldl_preserve {α β : Type} (step : β → α → β) (P : β → Prop)
    (hstep : ∀ b a, P b → P (step b a)) :
    ∀ (l : List α) (b : β), P b → P (l.foldl step b)
  | [], _, hb => hb
  | x :: xs, b, hb => foldl_preserve step P hstep xs (step b x) (hstep b x hb)

theorem foldl_fixed {α β : Type} (step : β → α → β) :
    ∀ (l : List α) (b : β), (∀ a ∈ l, ∀ b', step b' a = b') →
      l.foldl step b = b
  | [], _, _ => rfl
  | x :: xs, b, h => by
    rw [List.foldl_cons, h x (List.mem_cons_self x xs) b]
    exact foldl_fixed step xs b (fun a ha b' => h a (List.mem_cons_of_mem x ha) b')

theorem bestSingleStep_sound (maxDuration : ℚ) (dur : String → ℚ)
    (showName : String) (acc : Option Entry × ℚ) (ep : MediaFile)
    (hacc : ∀ e, acc.1 = some e → 1 < e.duration ∧ e.duration ≤ maxDuration) :
    ∀ e, (bestSingleStep maxDuration dur showName acc ep).1 = some e →
      1 < e.duration ∧ e.duration ≤ maxDuration := by
  intro e he
  unfold bestSingleStep at he
  by_cases h1 : 1 < dur ep.path ∧ dur ep.path ≤ maxDuration
  · rw [if_pos h1] at he
    by_cases h2 : maxDuration - dur ep.path < acc.2
    · rw [if_pos h2] at he
      have h' := Option.some.inj he
      subst h'
      exact h1
    · rw [if_neg h2] at he
      exact hacc e he
  · rw [if_neg h1] at he
    exact hacc e he

theorem bestPairStep_sound (maxDuration : ℚ) (dur : String → ℚ)
    (acc : Option (Entry × Entry) × ℚ) (pq : MediaFile × MediaFile)
    (hacc : ∀ pr, acc.1 = some pr →
      2 < pr.1.duration + pr.2.duration ∧
        pr.1.duration + pr.2.duration ≤ maxDuration) :
    ∀ pr, (bestPairStep maxDuration dur acc pq).1 = some pr →
      2 < pr.1.duration + pr.2.duration ∧
        pr.1.duration + pr.2.duration ≤ maxDuration := by
  intro pr hpr
  unfold bestPairStep at hpr
  by_cases h1 : 2 < dur pq.1.path + dur pq.2.path ∧
      dur pq.1.path + dur pq.2.path ≤ maxDuration
  · rw [if_pos h1] at hpr
    by_cases h2 : maxDuration - (dur pq.1.path + dur pq.2.path) < acc.2
    · rw [if_pos h2] at hpr
      have h' := Option.some.inj hpr
      subst h'
      exact h1
    · rw [if_neg h2] at hpr
      exact hacc pr hpr
  · rw [if_neg h1] at hpr
    exact hacc pr hpr

theorem best_single_of_sound (shows : List ShowDir) (slotVideoName : String)
    (dur : String → ℚ) (maxDuration : ℚ) :
    ∀ e, (best_single_of shows slotVideoName dur maxDuration).1 = some e →
      1 < e.duration ∧ e.duration ≤ maxDuration := by
  refine foldl_preserve _
    (fun acc : Option Entry × ℚ => ∀ e : Entry, acc.1 = some e →
      1 < e.duration ∧ e.duration ≤ maxDuration) ?_ shows (none, maxDuration)
    ?_
  · intro b s hb
    exact foldl_preserve _ _
      (fun b' a hb' => bestSingleStep_sound maxDuration dur s.name b' a hb')
      _ b hb
  · intro e he
    exact absurd he (by simp)

theorem best_pair_of_sound (allEps : List MediaFile) (dur : String → ℚ)
    (maxDuration : ℚ) :
    ∀ pr, (best_pair_of allEps dur maxDuration).1 = some pr →
      2 < pr.1.duration + pr.2.duration ∧
        pr.1.duration + pr.2.duration ≤ maxDuration := by
  refine foldl_preserve _
    (fun acc : Option (Entry × Entry) × ℚ => ∀ pr : Entry × Entry,
      acc.1 = some pr →
      2 < pr.1.duration + pr.2.duration ∧
        pr.1.duration + pr.2.duration ≤ maxDuration) ?_ (listPairs allEps)
    (none, maxDuration) ?_
  · intro b pq hb
    exact bestPairStep_sound maxDuration dur b pq hb
  · intro pr hpr
    exact absurd hpr (by simp)

theorem best_single_of_none (shows : List ShowDir) (slotVideoName : String)
    (dur : String → ℚ) (maxDuration : ℚ)
    (h : ∀ s ∈ shows, ∀ f ∈ s.files.filter (episodeCandidate slotVideoName),
      ¬(1 < dur f.path ∧ dur f.path ≤ maxDuration)) :
    (best_single_of shows slotVideoName dur maxDuration).1 = none := by
  unfold best_single_of
  rw [foldl_fixed]
  intro s hs b
  apply foldl_fixed
  intro f hf b'
  unfold bestSingleStep
  rw [if_neg (h s hs f hf)]

theorem best_pair_of_none (allEps : List MediaFile) (dur : String → ℚ)
    (maxDuration : ℚ)
    (h : ∀ pq ∈ listPairs allEps,
      ¬(2 < dur pq.1.path + dur pq.2.path ∧
        dur pq.1.path + dur pq.2.path ≤ maxDuration)) :
    (best_pair_of allEps dur maxDuration).1 = none := by
  unfold best_pair_of
  rw [foldl_fixed]
  intro pq hpq b
  unfold bestPairStep
  rw [if_neg (h pq hpq)]

theorem bestPairStep_some (maxDuration : ℚ) (dur : String → ℚ)
    (acc : Option (Entry × Entry) × ℚ) (pq : MediaFile × MediaFile)
    (hacc : acc.1.isSome = true) :
    (bestPairStep maxDuration dur acc pq).1.isSome = true := by
  unfold bestPairStep
  by_cases h1 : 2 < dur pq.1.path + dur pq.2.path ∧
      dur pq.1.path + dur pq.2.path ≤ maxDuration
  · rw [if_pos h1]
    by_cases h2 : maxDuration - (dur pq.1.path + dur pq.2.path) < acc.2
    · rw [if_pos h2]
      rfl
    · rw [if_neg h2]
      exact hacc
  · rw [if_neg h1]
    exact hacc

theorem best_pair_fold_some (dur : String → ℚ) (maxDuration : ℚ) :
    ∀ l : List (MediaFile × MediaFile),
      (∃ pq ∈ l, 2 < dur pq.1.path + dur pq.2.path ∧
        dur pq.1.path + dur pq.2.path ≤ maxDuration) →
      (l.foldl (bestPairStep maxDuration dur) (none, maxDuration)).1.isSome =
        true := by
  intro l
  induction l with
  | nil =>
    rintro ⟨pq, hmem, _⟩
    exact absurd hmem (by simp)
  | cons x xs ih =>
    rintro ⟨pq, hmem, hq⟩
    rw [List.foldl_cons]
    by_cases hx : 2 < dur x.1.path + dur x.2.path ∧
        dur x.1.path + dur x.2.path ≤ maxDuration
    · refine foldl_preserve _ (fun acc => acc.1.isSome = true)
        (fun b a hb => bestPairStep_some maxDuration dur b a hb) xs _ ?_
      unfold bestPairStep
      rw [if_pos hx]
      rw [if_pos (show maxDuration - (dur x.1.path + dur x.2.path) <
        ((none : Option (Entry × Entry)), maxDuration).2 by
          show maxDuration - (dur x.1.path + dur x.2.path) < maxDuration
          linarith [hx.1])]
      rfl
    · have hstep : bestPairStep maxDuration dur (none, maxDuration) x =
          (none, maxDuration) := by
        unfold bestPairStep
        rw [if_neg hx]
      rw [hstep]
      rcases List.mem_cons.mp hmem with heq | hmem'
      · subst heq
        exact absurd hq hx
      · exact ih ⟨pq, hmem', hq⟩

/-- Claim C4: For every maxDuration and every catalog state, whenever
`selectFitting` finds at least one qualifying pair (summed duration `s` with
`2 < s ≤ maxDuration`), it returns the tracked best pair rather than the
best single episode, even when the single episode's leftover gap is strictly
smaller than the pair's gap. -/
theorem C4_pair_preferred (shows : List ShowDir) (allEps : List MediaFile)
    (slotVideoName : String) (dur : String → ℚ) (maxDuration : ℚ)
    (fillerPick : Option MediaFile)
    (hq : ∃ pq ∈ listPairs allEps, 2 < dur pq.1.path + dur pq.2.path ∧
      dur pq.1.path + dur pq.2.path ≤ maxDuration) :
    ∃ pr, (best_pair_of allEps dur maxDuration).1 = some pr ∧
      get_fitting_episode shows allEps slotVideoName dur maxDuration
        fillerPick = some [pr.1, pr.2] := by
  have hsome : (best_pair_of allEps dur maxDuration).1.isSome = true :=
    best_pair_fold_some dur maxDuration (listPairs allEps) hq
  rcases Option.isSome_iff_exists.mp hsome with ⟨pr, hpr⟩
  refine ⟨pr, hpr, ?_⟩
  unfold get_fitting_episode
  rw [hpr]

/-- Episode files for the pair-preference scenario: durations 150, 140, 280
with budget 300 (pair sum 290, gap 10; single 280, gap 20). -/
def fitA : MediaFile :=
  { path := "a", name := "a.mp4", parent := "/eps/s1", ext := ".mp4",
    isFile := true, isDir := false, onDisk := true }

def fitB : MediaFile :=
  { path := "b", name := "b.mp4", parent := "/eps/s1", ext := ".mp4",
    isFile := true, isDir := false, onDisk := true }

def fitC : MediaFile :=
  { path := "c", name := "c.mp4", parent := "/eps/s2", ext := ".mp4",
    isFile := true, isDir := false, onDisk := true }

def fitDur : String → ℚ := fun p =>
  if p = "a" then 150 else if p = "b" then 140 else 280

theorem C4_witness :
    ∃ pr, (best_pair_of [fitA, fitB, fitC] fitDur 300).1 = some pr ∧
      get_fitting_episode [⟨"s2", [fitC]⟩] [fitA, fitB, fitC] "slot.ts"
        fitDur 300 none = some [pr.1, pr.2] :=
  C4_pair_preferred [⟨"s2", [fitC]⟩] [fitA, fitB, fitC] "slot.ts" fitDur 300
    none ⟨(fitA, fitB), by decide,
      by norm_num [show fitDur (fitA, fitB).1.path = 150 from rfl,
        show fitDur (fitA, fitB).2.path = 140 from rfl]⟩

/-- A filler clip used for the fallback-path counterexample. -/
def fallbackFiller : MediaFile :=
  { path := "/fill/f.mp4", name := "f.mp4", parent := "/fill", ext := ".mp4",
    isFile := true, isDir := false, onDisk := true }

/-- Claim C2, counterexample: with no episodes at all, budget 10 and a
filler whose probed duration is 100, `get_fitting_episode` returns a
non-`None` fallback result whose summed duration 100 exceeds the budget —
the filler fallback's duration is never checked against `max_duration`. -/
theorem C2_counterexample :
    (get_fitting_episode [] [] "slot.ts" (fun _ => 100) 10
        (some fallbackFiller)).isSome = true ∧
    entriesDuration ((get_fitting_episode [] [] "slot.ts" (fun _ => 100) 10
        (some fallbackFiller)).getD []) = 100 ∧
    ¬(100 : ℚ) ≤ 10 := by
  have hg : get_fitting_episode [] [] "slot.ts" (fun _ => 100) 10
      (some fallbackFiller) =
      some [{ path := "/fill/f.mp4", type := "FILLER",
              label := "FALLBACK - f.mp4", duration := 100 }] := rfl
  refine ⟨?_, ?_, by norm_num⟩
  · rw [hg]
    rfl
  · rw [hg]
    simp [entriesDuration]

/-- Claim C2, amended: every non-`None` result of `selectFitting` reached
through the episode branches (all entries typed `EPISODE`) has summed
duration at most `maxDuration`; when no single episode and no pair
qualifies, the result is exactly one filler entry labeled as a fallback
block, or `None` — but that fallback entry's duration is not checked against
`maxDuration` and may exceed it. -/
theorem C2_fitting_bounds (shows : List ShowDir) (allEps : List MediaFile)
    (slotVideoName : String) (dur : String → ℚ) (maxDuration : ℚ)
    (fillerPick : Option MediaFile) :
    (∀ es, get_fitting_episode shows allEps slotVideoName dur maxDuration
        fillerPick = some es →
      (∀ e ∈ es, e.type = "EPISODE") → entriesDuration es ≤ maxDuration) ∧
    ((∀ s ∈ shows, ∀ f ∈ s.files.filter (episodeCandidate slotVideoName),
        ¬(1 < dur f.path ∧ dur f.path ≤ maxDuration)) →
      (∀ pq ∈ listPairs allEps, ¬(2 < dur pq.1.path + dur pq.2.path ∧
        dur pq.1.path + dur pq.2.path ≤ maxDuration)) →
      get_fitting_episode shows allEps slotVideoName dur maxDuration
          fillerPick = none ∨
        ∃ f e, fillerPick = some f ∧
          get_fitting_episode shows allEps slotVideoName dur maxDuration
            fillerPick = some [e] ∧
          e.type = "FILLER" ∧ e.label = "FALLBACK - " ++ f.name) := by
  constructor
  · intro es hes htypes
    unfold get_fitting_episode at hes
    rcases hbp : (best_pair_of allEps dur maxDuration).1 with _ | pr
    · rcases hbs : (best_single_of shows slotVideoName dur maxDuration).1
        with _ | e
      · rw [hbp, hbs] at hes
        rcases fillerPick with _ | f
        · exact absurd hes (by simp)
        · simp only at hes
          by_cases hd : f.onDisk = true
          · rw [if_pos hd] at hes
            have h' := Option.some.inj hes
            subst h'
            have hf := htypes _ (List.mem_singleton_self _)
            simp at hf
          · rw [if_neg hd] at hes
            exact absurd hes (by simp)
      · rw [hbp, hbs] at hes
        have h' := Option.some.inj hes
        subst h'
        have hq := best_single_of_sound shows slotVideoName dur maxDuration
          e hbs
        have : entriesDuration [e] = e.duration := by
          simp [entriesDuration]
        rw [this]
        linarith [hq.2]
    · rw [hbp] at hes
      have h' := Option.some.inj hes
      subst h'
      have hq := best_pair_of_sound allEps dur maxDuration pr hbp
      have : entriesDuration [pr.1, pr.2] = pr.1.duration + pr.2.duration := by
        simp [entriesDuration]
      rw [this]
      linarith [hq.2]
  · intro hsingle hpair
    have h1 := best_single_of_none shows slotVideoName dur maxDuration hsingle
    have h2 := best_pair_of_none allEps dur maxDuration hpair
    rcases fillerPick with _ | f
    · left
      exact gfe_fallback_none shows allEps slotVideoName dur maxDuration h1 h2
    · have hf := gfe_fallback_some shows allEps slotVideoName dur maxDuration
        f h1 h2
      by_cases hd : f.onDisk = true
      · right
        rw [if_pos hd] at hf
        exact ⟨f, _, rfl, hf, rfl, rfl⟩
      · left
        rw [if_neg hd] at hf
        exact hf

theorem C2_witness :
    get_fitting_episode [] [] "slot.ts" (fun _ => (0 : ℚ)) 10 none = none ∨
      ∃ f e, (none : Option MediaFile) = some f ∧
        get_fitting_episode [] [] "slot.ts" (fun _ => (0 : ℚ)) 10 none =
          some [e] ∧
        e.type = "FILLER" ∧ e.label = "FALLBACK - " ++ f.name :=
  (C2_fitting_bounds [] [] "slot.ts" (fun _ => (0 : ℚ)) 10 none).2
    (by simp) (by simp [listPairs])

end Hourglass
